import Mathlib

/-!
Shallow embedding of `clippy_lints/src/formatting.rs` (the `Formatting`
early lint pass): the suspicious-assignment matcher, the suspicious
`else if` matcher and the consecutive-`if` matcher, together with the
span / source-text scaffolding they consume.

Spans are byte-offset pairs with an opaque expansion-context identifier.
The source buffer is a `List Char`; snippets are slices of it, guarded by
an availability oracle (a span whose text cannot be mapped back to
literal source yields no snippet).
-/

/-- A source span: `lo`/`hi` byte offsets plus an expansion-context id
(`ctxt`), mirroring `syntax::codemap::Span` with its `expn_id`. -/
structure Span where
  lo : Nat
  hi : Nat
  ctxt : Nat
  deriving Repr, DecidableEq

/-- Mirrors `syntax::codemap::mk_sp`: a fresh span over the given offsets,
in the null (no-expansion) context. -/
def mk_sp (lo hi : Nat) : Span :=
  { lo := lo, hi := hi, ctxt := 0 }

/-- The unary operators of `ast::UnOp`. -/
inductive UnOp where
  | deref
  | not
  | neg
  deriving Repr, DecidableEq

/-- Mirrors `ast::UnOp::to_string`: `*`, `!` and `-`. -/
def UnOp.opChars : UnOp → List Char
  | .deref => ['*']
  | .not => ['!']
  | .neg => ['-']

/-- The stringified unary operator used in the lint messages. -/
def UnOp.toMsgString (op : UnOp) : String :=
  ⟨op.opChars⟩

mutual

/-- The fragment of `ast::ExprKind` the pass inspects: `Assign`, `Unary`,
`If`, `IfLet`, everything else collapsed to `other`. Every expression
carries its span. -/
inductive Expr : Type where
  | assign (sp : Span) (lhs rhs : Expr)
  | unary (sp : Span) (op : UnOp) (operand : Expr)
  | ifE (sp : Span) (cond : Expr) (thn : Block) (els : Option Expr)
  | ifLet (sp : Span) (scrutinee : Expr) (thn : Block) (els : Option Expr)
  | other (sp : Span)

/-- An `ast::Block`: a span and an ordered statement list. -/
inductive Block : Type where
  | mk (sp : Span) (stmts : List Stmt)

/-- The fragment of `ast::StmtKind` the pass inspects: expression
statements, semicolon-terminated expression statements, everything else
collapsed to `other`. -/
inductive Stmt : Type where
  | expr (e : Expr)
  | semi (e : Expr)
  | other

end

/-- The span of an expression node. -/
def Expr.span : Expr → Span
  | .assign sp _ _ => sp
  | .unary sp _ _ => sp
  | .ifE sp _ _ _ => sp
  | .ifLet sp _ _ _ => sp
  | .other sp => sp

/-- The span of a block. -/
def Block.span : Block → Span
  | .mk sp _ => sp

/-- The statement list of a block. -/
def Block.stmts : Block → List Stmt
  | .mk _ stmts => stmts

/-- The analysis context handed to the pass (`EarlyContext` plus its
codemap): the immutable source buffer, the snippet-availability oracle,
and the expansion context of the enclosing file. -/
structure Ctx where
  buf : List Char
  avail : Nat → Nat → Bool
  fileCtxt : Nat

/-- The literal text of the half-open buffer range `[lo, hi)`. -/
def Ctx.slice (cx : Ctx) (lo hi : Nat) : List Char :=
  (cx.buf.take hi).drop lo

/-- Modelled from the spec: the Span-to-source-text lookup of the
external codemap (`utils::snippet_opt`), which "may return unavailable
for synthesized spans"; when the span maps back to literal source it
returns exactly the text in that range. -/
def snippet_opt (cx : Ctx) (sp : Span) : Option (List Char) :=
  if cx.avail sp.lo sp.hi then some (cx.slice sp.lo sp.hi) else none

/-- Modelled from the spec: `utils::differing_macro_contexts` — "two
spans are macro-divergent if their expansion contexts differ". -/
def differing_macro_contexts (sp1 sp2 : Span) : Bool :=
  sp1.ctxt != sp2.ctxt

/-- Modelled from the spec: `utils::in_macro` — "a span is in a macro if
its expansion context differs from the file's top-level context". -/
def in_macro_ctxt (cx : Ctx) (sp : Span) : Bool :=
  sp.ctxt != cx.fileCtxt

/-- The two lint rules registered by the pass. -/
inductive Rule where
  | suspiciousAssignmentFormatting
  | suspiciousElseFormatting
  deriving Repr, DecidableEq

/-- One diagnostic record as produced by `span_note_and_lint`: a rule id,
a primary span/message and a secondary (note) span/message. -/
structure Finding where
  rule : Rule
  primarySpan : Span
  primaryMsg : String
  secondarySpan : Span
  secondaryMsg : String
  deriving Repr, DecidableEq

/-- The Finding built by `check_assign` when it fires: both spans are the
`eqop` span and the messages name the confused operator. -/
def assignFinding (op : UnOp) (eqopSpan : Span) : Finding :=
  { rule := .suspiciousAssignmentFormatting
    primarySpan := eqopSpan
    primaryMsg := "this looks like you are trying to use `.. " ++ op.toMsgString ++
      "= ..`, but you really are doing `.. = (" ++ op.toMsgString ++ " ..)`"
    secondarySpan := eqopSpan
    secondaryMsg := "to remove this lint, use either `" ++ op.toMsgString ++
      "=` or `= " ++ op.toMsgString ++ "`" }

/-- Mirrors `check_assign`: the `SUSPICIOUS_ASSIGNMENT_FORMATTING`
matcher. On an `Assign(lhs, rhs)` whose spans are not macro-divergent and
whose lhs is not macro-emitted, with `rhs = Unary(op, sub_rhs)`, it
fetches the text between `lhs` and `rhs` and fires when that text ends
with `=`. -/
def check_assign (cx : Ctx) (e : Expr) : List Finding :=
  match e with
  | .assign _ lhs rhs =>
    if !differing_macro_contexts lhs.span rhs.span && !(in_macro_ctxt cx lhs.span) then
      let eq_span := mk_sp lhs.span.hi rhs.span.lo
      match rhs with
      | .unary _ op sub_rhs =>
        match snippet_opt cx eq_span with
        | some eq_snippet =>
          let eqop_span := mk_sp lhs.span.hi sub_rhs.span.lo
          if eq_snippet.getLast? == some '=' then
            [assignFinding op eqop_span]
          else
            []
        | none => []
      | _ => []
    else
      []
  | _ => []

/-- Mirrors `unsugar_if`: match `if` or `if let` expressions and return
the `then` block and the optional `else` expression. -/
def unsugar_if : Expr → Option (Block × Option Expr)
  | .ifE _ _ thn els => some (thn, els)
  | .ifLet _ _ thn els => some (thn, els)
  | _ => none

/-- The characters of the keyword `else`, as searched for in the gap
snippet. -/
def elseKw : List Char :=
  ['e', 'l', 's', 'e']

/-- Mirrors `str::find` for a fixed pattern: the least index at which
`pat` occurs as a contiguous run of `l`, if any. -/
def findSub (l pat : List Char) : Option Nat :=
  (List.range (l.length + 1)).find? (fun i => pat.isPrefixOf (l.drop i))

/-- The Finding built by `check_else_if` when it fires: both spans are
the else-gap span. -/
def elseIfFinding (elseSpan : Span) : Finding :=
  { rule := .suspiciousElseFormatting
    primarySpan := elseSpan
    primaryMsg := "this is an `else if` but the formatting might hide it"
    secondarySpan := elseSpan
    secondaryMsg := "to remove this lint, remove the `else` or remove the new line between `else` and `if`" }

/-- Mirrors `check_else_if`: the `SUSPICIOUS_ELSE_FORMATTING` matcher for
weird `else if`. On an `if`/`if let` whose `else` is itself an
`if`/`if let`, spans permitting, it fetches the text between the `then`
block and the `else` expression, locates the first `else` in it (a panic,
modelled as `Except.error`, if absent) and fires when a newline follows
that occurrence. -/
def check_else_if (cx : Ctx) (e : Expr) : Except String (List Finding) :=
  match unsugar_if e with
  | some (thn, some els) =>
    if (unsugar_if els).isSome && !differing_macro_contexts thn.span els.span &&
        !(in_macro_ctxt cx thn.span) then
      let else_span := mk_sp thn.span.hi els.span.lo
      match snippet_opt cx else_span with
      | some else_snippet =>
        match findSub else_snippet elseKw with
        | some else_pos =>
          if (else_snippet.drop else_pos).contains '\n' then
            .ok [elseIfFinding else_span]
          else
            .ok []
        | none => .error "there must be a `else` here"
      | none => .ok []
    else
      .ok []
  | _ => .ok []

/-- The Finding built by `check_consecutive_ifs` when it fires: both
spans are the would-be-`else` gap span. -/
def consecutiveIfsFinding (elseSpan : Span) : Finding :=
  { rule := .suspiciousElseFormatting
    primarySpan := elseSpan
    primaryMsg := "this looks like an `else if` but the `else` is missing"
    secondarySpan := elseSpan
    secondaryMsg := "to remove this lint, add the missing `else` or add a new line before the second `if`" }

/-- Mirrors `check_consecutive_ifs`: the `SUSPICIOUS_ELSE_FORMATTING`
matcher for consecutive ifs. When both expressions unsugar to
`if`/`if let`, spans permitting, it fetches the text between them and
fires when that text contains no newline. -/
def check_consecutive_ifs (cx : Ctx) (first second : Expr) : List Finding :=
  if !differing_macro_contexts first.span second.span && !(in_macro_ctxt cx first.span) &&
      (unsugar_if first).isSome && (unsugar_if second).isSome then
    let else_span := mk_sp first.span.hi second.span.lo
    match snippet_opt cx else_span with
    | some else_snippet =>
      if !else_snippet.contains '\n' then
        [consecutiveIfsFinding else_span]
      else
        []
    | none => []
  else
    []

/-- The per-window dispatch of `Formatting::check_block`: only an
`Expr`-statement followed by an `Expr`- or `Semi`-statement reaches
`check_consecutive_ifs`; every other pair falls through. -/
def checkStmtPair (cx : Ctx) (s1 s2 : Stmt) : List Finding :=
  match s1, s2 with
  | .expr first, .expr second => check_consecutive_ifs cx first second
  | .expr first, .semi second => check_consecutive_ifs cx first second
  | _, _ => []

/-- The traversal of `block.stmts.windows(2)` in
`Formatting::check_block`, collecting the Findings of every adjacent
pair in order. -/
def checkStmtsWindows (cx : Ctx) : List Stmt → List Finding
  | s1 :: s2 :: rest => checkStmtPair cx s1 s2 ++ checkStmtsWindows cx (s2 :: rest)
  | _ => []

/-- Mirrors `Formatting::check_block`. -/
def check_block (cx : Ctx) (b : Block) : List Finding :=
  checkStmtsWindows cx b.stmts

/-- Mirrors `Formatting::check_expr`: run `check_assign`, then
`check_else_if`, on the same expression; the Findings of both (in that
order), or the propagated panic. -/
def check_expr (cx : Ctx) (e : Expr) : Except String (List Finding) :=
  match check_else_if cx e with
  | .ok fs => .ok (check_assign cx e ++ fs)
  | .error msg => .error msg

/-- Mirrors the fieldless `pub struct Formatting`: the mutable pass value
the host threads through the traversal carries no fields, hence no
state. -/
structure Formatting where
  deriving Repr, DecidableEq

/-- One node the host traversal hands to the pass: an expression (for
`check_expr`) or a block (for `check_block`). -/
inductive Node where
  | exprNode (e : Expr)
  | blockNode (b : Block)

/-- One host callback into the pass, threading the `&mut self` receiver. -/
def visitNode (st : Formatting) (cx : Ctx) : Node → Formatting × Except String (List Finding)
  | .exprNode e => (st, check_expr cx e)
  | .blockNode b => (st, .ok (check_block cx b))

/-- The host-owned traversal: visit the nodes in order, threading the
pass state and concatenating the emitted Findings; a panic aborts the
traversal. -/
def runPass (st : Formatting) (cx : Ctx) : List Node → Formatting × Except String (List Finding)
  | [] => (st, .ok [])
  | n :: ns =>
    match visitNode st cx n with
    | (st1, .ok fs) =>
      match runPass st1 cx ns with
      | (st2, .ok rest) => (st2, .ok (fs ++ rest))
      | (st2, .error msg) => (st2, .error msg)
    | (st1, .error msg) => (st1, .error msg)

/-- One adjacency obligation of the consecutive-if chain property: the
pair passes the macro checks and its gap text is available and free of
line breaks. -/
def adjacentOk (cx : Ctx) (e1 e2 : Expr) : Prop :=
  differing_macro_contexts e1.span e2.span = false ∧
  in_macro_ctxt cx e1.span = false ∧
  ∃ s, snippet_opt cx (mk_sp e1.span.hi e2.span.lo) = some s ∧ s.contains '\n' = false

/-! ## Helper lemmas on the data model, slices and substring search -/

@[simp]
theorem Expr.span_assign (sp : Span) (lhs rhs : Expr) : (Expr.assign sp lhs rhs).span = sp :=
  rfl

@[simp]
theorem Expr.span_unary (sp : Span) (op : UnOp) (e : Expr) : (Expr.unary sp op e).span = sp :=
  rfl

@[simp]
theorem Expr.span_ifE (sp : Span) (c : Expr) (t : Block) (e : Option Expr) :
    (Expr.ifE sp c t e).span = sp :=
  rfl

@[simp]
theorem Expr.span_ifLet (sp : Span) (s : Expr) (t : Block) (e : Option Expr) :
    (Expr.ifLet sp s t e).span = sp :=
  rfl

@[simp]
theorem Expr.span_other (sp : Span) : (Expr.other sp).span = sp :=
  rfl

@[simp]
theorem Block.span_mk (sp : Span) (stmts : List Stmt) : (Block.mk sp stmts).span = sp :=
  rfl

/-- A slice splits at any interior offset. -/
theorem Ctx.slice_split (cx : Ctx) {lo mid hi : Nat} (h1 : lo ≤ mid) (h2 : mid ≤ hi)
    (h3 : hi ≤ cx.buf.length) :
    cx.slice lo hi = cx.slice lo mid ++ cx.slice mid hi := by
  unfold Ctx.slice
  conv_lhs => rw [← List.take_append_drop mid (cx.buf.take hi)]
  rw [List.drop_append_eq_append_drop]
  have hsub : (cx.buf.take hi).take mid = cx.buf.take mid := by
    rw [List.take_take]
    congr 1
    omega
  rw [hsub]
  have hlen : (cx.buf.take mid).length = mid := by
    simp only [List.length_take]
    omega
  rw [hlen]
  have : lo - mid = 0 := by omega
  rw [this, List.drop_zero]

/-- `findSub` returns an index where the pattern really occurs. -/
theorem findSub_some (l pat : List Char) (p : Nat) (h : findSub l pat = some p) :
    pat.isPrefixOf (l.drop p) = true := by
  have := List.find?_some h
  simpa using this

/-- If the pattern occurs anywhere, `findSub` succeeds. -/
theorem findSub_isSome (l pat : List Char) (h : ∃ i, pat.isPrefixOf (l.drop i) = true) :
    (findSub l pat).isSome := by
  obtain ⟨i, hi⟩ := h
  rw [findSub, List.find?_isSome]
  refine ⟨min i l.length, List.mem_range.2 (by omega), ?_⟩
  rcases le_or_lt i l.length with hle | hlt
  · simpa [Nat.min_eq_left hle] using hi
  · have hnil : l.drop i = [] := List.drop_eq_nil_of_le (by omega)
    rw [hnil] at hi
    have hpat : pat = [] := by
      cases pat with
      | nil => rfl
      | cons a t => simp [List.isPrefixOf] at hi
    simp [hpat, List.isPrefixOf]

/-- Dropping past an occurrence of `else` found by prefix test splits the
remainder as the keyword followed by the text after it. -/
theorem drop_elseKw (l : List Char) (p : Nat) (h : elseKw.isPrefixOf (l.drop p) = true) :
    l.drop p = elseKw ++ l.drop (p + 4) := by
  obtain ⟨t, ht⟩ := List.isPrefixOf_iff_prefix.mp h
  have hts : t = l.drop (p + 4) := by
    have h4 : (elseKw ++ t).drop 4 = t := by
      simp [elseKw]
    rw [ht] at h4
    rw [← h4, List.drop_drop]
  rw [← ht, hts]

/-- `contains` distributes over append. -/
theorem char_contains_append (a b : List Char) (c : Char) :
    (a ++ b).contains c = (a.contains c || b.contains c) := by
  induction a with
  | nil => simp
  | cons x xs ih => simp [List.contains_cons, ih, Bool.or_assoc]

/-! ## C1: the suspicious-assignment matcher -/

/-- C1: for an assignment whose rhs is `Unary(op, x)`, spans aligned and
not macro-divergent, lhs not macro-emitted, and the lhs-to-rhs gap text
available: a `SuspiciousAssignmentFormatting` Finding is produced when
the literal gap between lhs and `x` is exactly `=` followed by the
operator symbol with no intervening space; no Finding is produced when a
space immediately separates the `=` text from the operator symbol; and no
Finding is produced when rhs is not a unary expression. -/
theorem check_assign_unary_gap_spec (cx : Ctx) (sp : Span) (lhs : Expr) :
    (∀ (usp : Span) (op : UnOp) (sub_rhs : Expr),
      differing_macro_contexts lhs.span usp = false →
      in_macro_ctxt cx lhs.span = false →
      cx.avail lhs.span.hi usp.lo = true →
      lhs.span.hi ≤ usp.lo →
      usp.lo ≤ sub_rhs.span.lo →
      sub_rhs.span.lo ≤ cx.buf.length →
      cx.slice usp.lo sub_rhs.span.lo = op.opChars →
      cx.slice lhs.span.hi sub_rhs.span.lo = '=' :: op.opChars →
      check_assign cx (.assign sp lhs (.unary usp op sub_rhs)) =
        [assignFinding op (mk_sp lhs.span.hi sub_rhs.span.lo)]) ∧
    (∀ (usp : Span) (op : UnOp) (sub_rhs : Expr) (pre : List Char),
      cx.avail lhs.span.hi usp.lo = true →
      lhs.span.hi ≤ usp.lo →
      usp.lo ≤ sub_rhs.span.lo →
      sub_rhs.span.lo ≤ cx.buf.length →
      cx.slice usp.lo sub_rhs.span.lo = op.opChars →
      cx.slice lhs.span.hi sub_rhs.span.lo = pre ++ ' ' :: op.opChars →
      check_assign cx (.assign sp lhs (.unary usp op sub_rhs)) = []) ∧
    (∀ rhs : Expr, (∀ (usp : Span) (op : UnOp) (sub_rhs : Expr), rhs ≠ .unary usp op sub_rhs) →
      check_assign cx (.assign sp lhs rhs) = []) := by
  refine ⟨?_, ?_, ?_⟩
  · intro usp op sub_rhs hdm him hav h1 h2 h3 hop hgap
    have hsplit := cx.slice_split h1 h2 h3
    rw [hsplit, hop] at hgap
    have heq : cx.slice lhs.span.hi usp.lo = ['='] := by
      have hgap2 : cx.slice lhs.span.hi usp.lo ++ op.opChars = ['='] ++ op.opChars := by
        simpa using hgap
      exact List.append_cancel_right hgap2
    simp [check_assign, hdm, him, snippet_opt, mk_sp, hav, heq]
  · intro usp op sub_rhs pre hav h1 h2 h3 hop hgap
    have hsplit := cx.slice_split h1 h2 h3
    rw [hsplit, hop] at hgap
    have heq : cx.slice lhs.span.hi usp.lo = pre ++ [' '] := by
      have hgap2 : cx.slice lhs.span.hi usp.lo ++ op.opChars = (pre ++ [' ']) ++ op.opChars := by
        simpa using hgap
      exact List.append_cancel_right hgap2
    have hlast : (cx.slice lhs.span.hi usp.lo).getLast? = some ' ' := by
      rw [heq, List.getLast?_concat]
    simp only [check_assign, Expr.span_unary, Expr.span_assign]
    split
    · simp [snippet_opt, mk_sp, hav, hlast]
    · rfl
  · intro rhs hne
    cases rhs with
    | unary usp op sub_rhs => exact absurd rfl (hne usp op sub_rhs)
    | assign a b c => simp [check_assign]
    | ifE a b c d => simp [check_assign]
    | ifLet a b c d => simp [check_assign]
    | other a => simp [check_assign]

/-- Witness for C1: `a=-42` (gap between `a` and `42` is exactly `=-`)
fires; `a= -42` (space before the `-`) does not; `a = b` (rhs not unary)
does not. -/
theorem check_assign_unary_gap_spec_witness :
    check_assign
        { buf := ['a', '=', '-', '4', '2'], avail := fun _ _ => true, fileCtxt := 0 }
        (.assign ⟨0, 5, 0⟩ (.other ⟨0, 1, 0⟩) (.unary ⟨2, 5, 0⟩ .neg (.other ⟨3, 5, 0⟩))) =
      [assignFinding .neg (mk_sp 1 3)] ∧
    check_assign
        { buf := ['a', '=', ' ', '-', '4', '2'], avail := fun _ _ => true, fileCtxt := 0 }
        (.assign ⟨0, 6, 0⟩ (.other ⟨0, 1, 0⟩) (.unary ⟨3, 6, 0⟩ .neg (.other ⟨4, 6, 0⟩))) = [] ∧
    check_assign
        { buf := ['a', '=', 'b'], avail := fun _ _ => true, fileCtxt := 0 }
        (.assign ⟨0, 3, 0⟩ (.other ⟨0, 1, 0⟩) (.other ⟨2, 3, 0⟩)) = [] := by
  refine ⟨?_, ?_, ?_⟩
  · exact (check_assign_unary_gap_spec _ _ _).1 ⟨2, 5, 0⟩ .neg (.other ⟨3, 5, 0⟩)
      (by decide) (by decide) rfl (by decide) (by decide) (by decide) (by decide) (by decide)
  · exact (check_assign_unary_gap_spec _ _ _).2.1 ⟨3, 6, 0⟩ .neg (.other ⟨4, 6, 0⟩) ['=']
      rfl (by decide) (by decide) (by decide) (by decide) (by decide)
  · exact (check_assign_unary_gap_spec _ _ _).2.2 (.other ⟨2, 3, 0⟩) (by intro a b c h; cases h)

/-! ## C2: the suspicious else-if matcher -/

/-- C2: for an `if`/`if let` whose else branch is present and is itself
an `if`/`if let`, spans not macro-divergent, then-span not macro-emitted,
and the then-to-else gap text available: a `SuspiciousElseFormatting`
Finding is produced if and only if a line-break character occurs strictly
after the `else` token (located at the first occurrence of `else` in the
gap) and before the nested `if`. -/
theorem check_else_if_newline_spec (cx : Ctx) (e : Expr) (thn : Block) (els : Expr)
    (hun : unsugar_if e = some (thn, some els))
    (hels : (unsugar_if els).isSome = true)
    (hdm : differing_macro_contexts thn.span els.span = false)
    (him : in_macro_ctxt cx thn.span = false)
    (s : List Char)
    (hsnip : snippet_opt cx (mk_sp thn.span.hi els.span.lo) = some s)
    (p : Nat)
    (hfind : findSub s elseKw = some p) :
    check_else_if cx e =
      .ok (if (s.drop (p + 4)).contains '\n' then
        [elseIfFinding (mk_sp thn.span.hi els.span.lo)]
      else
        []) := by
  have hpre := findSub_some s elseKw p hfind
  have hdec := drop_elseKw s p hpre
  have hc : (s.drop p).contains '\n' = (s.drop (p + 4)).contains '\n' := by
    rw [hdec, char_contains_append]
    simp [elseKw]
  unfold check_else_if
  rw [hun]
  simp only [hels, hdm, him, Bool.not_false, Bool.and_self, Bool.and_true, if_true]
  rw [hsnip]
  simp only [hfind, hc]
  split <;> rfl

/-- Witness for C2: with source `AAAA else#BB` (`#` standing for the
newline) the gap ` else\n` puts a newline after the `else`, so the
matcher fires. -/
theorem check_else_if_newline_spec_witness :
    check_else_if
        { buf := ['A', 'A', 'A', 'A', ' ', 'e', 'l', 's', 'e', '\n', 'B', 'B'],
          avail := fun _ _ => true, fileCtxt := 0 }
        (.ifE ⟨0, 12, 0⟩ (.other ⟨0, 0, 0⟩) (.mk ⟨0, 4, 0⟩ [])
          (some (.ifE ⟨10, 12, 0⟩ (.other ⟨10, 10, 0⟩) (.mk ⟨10, 12, 0⟩ []) none))) =
      .ok [elseIfFinding (mk_sp 4 10)] := by
  have h := check_else_if_newline_spec
    { buf := ['A', 'A', 'A', 'A', ' ', 'e', 'l', 's', 'e', '\n', 'B', 'B'],
      avail := fun _ _ => true, fileCtxt := 0 }
    (.ifE ⟨0, 12, 0⟩ (.other ⟨0, 0, 0⟩) (.mk ⟨0, 4, 0⟩ [])
      (some (.ifE ⟨10, 12, 0⟩ (.other ⟨10, 10, 0⟩) (.mk ⟨10, 12, 0⟩ []) none)))
    (.mk ⟨0, 4, 0⟩ []) (.ifE ⟨10, 12, 0⟩ (.other ⟨10, 10, 0⟩) (.mk ⟨10, 12, 0⟩ []) none)
    rfl rfl (by decide) (by decide)
    [' ', 'e', 'l', 's', 'e', '\n'] (by decide) 1 (by decide)
  simpa using h

/-! ## C3: the consecutive-if matcher -/

/-- C3: for two expressions that both unsugar to `if`/`if let`, spans not
macro-divergent, first span not macro-emitted, and the gap text between
them available: a `SuspiciousElseFormatting` Finding is produced if and
only if that gap text contains no line-break character. -/
theorem check_consecutive_ifs_gap_spec (cx : Ctx) (first second : Expr)
    (h1 : (unsugar_if first).isSome = true)
    (h2 : (unsugar_if second).isSome = true)
    (hdm : differing_macro_contexts first.span second.span = false)
    (him : in_macro_ctxt cx first.span = false)
    (s : List Char)
    (hsnip : snippet_opt cx (mk_sp first.span.hi second.span.lo) = some s) :
    check_consecutive_ifs cx first second =
      if s.contains '\n' then
        []
      else
        [consecutiveIfsFinding (mk_sp first.span.hi second.span.lo)] := by
  unfold check_consecutive_ifs
  simp only [h1, h2, hdm, him, Bool.not_false, Bool.and_self, Bool.and_true, if_true]
  rw [hsnip]
  cases hc : s.contains '\n' <;> simp [hc] <;> simpa using hc

/-- Witness for C3: two touching `if` statements (empty gap, hence no
newline) fire; the same pair with a newline in the gap does not. -/
theorem check_consecutive_ifs_gap_spec_witness :
    check_consecutive_ifs
        { buf := ['i', 'f', ' ', 'a', '{', '}', 'i', 'f', ' ', 'b', '{', '}'],
          avail := fun _ _ => true, fileCtxt := 0 }
        (.ifE ⟨0, 6, 0⟩ (.other ⟨3, 4, 0⟩) (.mk ⟨4, 6, 0⟩ []) none)
        (.ifE ⟨6, 12, 0⟩ (.other ⟨9, 10, 0⟩) (.mk ⟨10, 12, 0⟩ []) none) =
      [consecutiveIfsFinding (mk_sp 6 6)] := by
  have h := check_consecutive_ifs_gap_spec
    { buf := ['i', 'f', ' ', 'a', '{', '}', 'i', 'f', ' ', 'b', '{', '}'],
      avail := fun _ _ => true, fileCtxt := 0 }
    (.ifE ⟨0, 6, 0⟩ (.other ⟨3, 4, 0⟩) (.mk ⟨4, 6, 0⟩ []) none)
    (.ifE ⟨6, 12, 0⟩ (.other ⟨9, 10, 0⟩) (.mk ⟨10, 12, 0⟩ []) none)
    rfl rfl (by decide) (by decide) [] (by decide)
  simpa using h

/-! ## C4: which statement pairs the block check examines -/

/-- C4 counterexample: two semicolon-terminated `if` statements whose gap
(`;`, no newline) satisfies every textual and macro condition — the pair
matcher itself would fire on the two expressions — yet `check_block`
produces nothing, because a `Semi`-first pair never reaches
`check_consecutive_ifs`; the same holds for a `Semi`-to-`Expr` pair. -/
theorem check_block_semi_first_counterexample :
    check_consecutive_ifs
        { buf := ['i', 'f', ' ', 'a', '{', '}', ';', 'i', 'f', ' ', 'b', '{', '}'],
          avail := fun _ _ => true, fileCtxt := 0 }
        (.ifE ⟨0, 6, 0⟩ (.other ⟨3, 4, 0⟩) (.mk ⟨4, 6, 0⟩ []) none)
        (.ifE ⟨7, 13, 0⟩ (.other ⟨10, 11, 0⟩) (.mk ⟨11, 13, 0⟩ []) none) =
      [consecutiveIfsFinding (mk_sp 6 7)] ∧
    check_block
        { buf := ['i', 'f', ' ', 'a', '{', '}', ';', 'i', 'f', ' ', 'b', '{', '}'],
          avail := fun _ _ => true, fileCtxt := 0 }
        (.mk ⟨0, 13, 0⟩
          [.semi (.ifE ⟨0, 6, 0⟩ (.other ⟨3, 4, 0⟩) (.mk ⟨4, 6, 0⟩ []) none),
           .semi (.ifE ⟨7, 13, 0⟩ (.other ⟨10, 11, 0⟩) (.mk ⟨11, 13, 0⟩ []) none)]) = [] ∧
    check_block
        { buf := ['i', 'f', ' ', 'a', '{', '}', ';', 'i', 'f', ' ', 'b', '{', '}'],
          avail := fun _ _ => true, fileCtxt := 0 }
        (.mk ⟨0, 13, 0⟩
          [.semi (.ifE ⟨0, 6, 0⟩ (.other ⟨3, 4, 0⟩) (.mk ⟨4, 6, 0⟩ []) none),
           .expr (.ifE ⟨7, 13, 0⟩ (.other ⟨10, 11, 0⟩) (.mk ⟨11, 13, 0⟩ []) none)]) = [] := by
  refine ⟨?_, rfl, rfl⟩
  rfl

/-- C4 amended: the consecutive-if check examines exactly the adjacent
pairs whose first statement is an `Expr`-statement and whose second is an
`Expr`- or `Semi`-statement; a pair whose first statement is a
`Semi`-statement (or anything else) is skipped and can never produce a
Finding. -/
theorem checkStmtPair_expr_first_spec (cx : Ctx) (e1 e2 : Expr) (s : Stmt) :
    checkStmtPair cx (.expr e1) (.expr e2) = check_consecutive_ifs cx e1 e2 ∧
    checkStmtPair cx (.expr e1) (.semi e2) = check_consecutive_ifs cx e1 e2 ∧
    checkStmtPair cx (.semi e1) s = [] ∧
    checkStmtPair cx .other s = [] ∧
    checkStmtPair cx (.expr e1) .other = [] := by
  refine ⟨rfl, rfl, ?_, ?_, rfl⟩ <;> cases s <;> rfl

/-! ## C5: the macro-origin invariant -/

/-- If either span's expansion context differs from the file context,
then the pair is macro-divergent or its first span is in a macro. -/
theorem macro_guard_cases (cx : Ctx) (s1 s2 : Span)
    (h : s1.ctxt ≠ cx.fileCtxt ∨ s2.ctxt ≠ cx.fileCtxt) :
    differing_macro_contexts s1 s2 = true ∨ in_macro_ctxt cx s1 = true := by
  unfold differing_macro_contexts in_macro_ctxt
  by_cases h12 : s1.ctxt = s2.ctxt
  · right
    rcases h with h | h
    · simpa [bne] using h
    · rw [h12]
      simpa [bne] using h
  · left
    simpa [bne] using h12

/-- C5: whenever either span of the candidate pair (lhs/rhs for the
assignment matcher, then/else for the else-if matcher, first/second for
the consecutive-if matcher) carries an expansion context different from
the enclosing file's, the matcher produces no Finding, regardless of the
gap's textual content. -/
theorem macro_origin_invariant (cx : Ctx) :
    (∀ (sp : Span) (lhs rhs : Expr),
      lhs.span.ctxt ≠ cx.fileCtxt ∨ rhs.span.ctxt ≠ cx.fileCtxt →
      check_assign cx (.assign sp lhs rhs) = []) ∧
    (∀ (e : Expr) (thn : Block) (els : Expr),
      unsugar_if e = some (thn, some els) →
      thn.span.ctxt ≠ cx.fileCtxt ∨ els.span.ctxt ≠ cx.fileCtxt →
      check_else_if cx e = .ok []) ∧
    (∀ first second : Expr,
      first.span.ctxt ≠ cx.fileCtxt ∨ second.span.ctxt ≠ cx.fileCtxt →
      check_consecutive_ifs cx first second = []) := by
  refine ⟨?_, ?_, ?_⟩
  · intro sp lhs rhs h
    rcases macro_guard_cases cx lhs.span rhs.span h with hg | hg <;>
      simp [check_assign, hg]
  · intro e thn els hun h
    unfold check_else_if
    rw [hun]
    rcases macro_guard_cases cx thn.span els.span h with hg | hg <;> simp [hg]
  · intro first second h
    rcases macro_guard_cases cx first.span second.span h with hg | hg <;>
      simp [check_consecutive_ifs, hg]

/-- Witness for C5: an assignment whose rhs sits in expansion context 7
(file context 0) yields no Finding even though the gap text is exactly
`=-`; likewise an `else if` whose else is macro-emitted, and a
consecutive-if pair whose second `if` is macro-emitted. -/
theorem macro_origin_invariant_witness :
    check_assign
        { buf := ['a', '=', '-', '4', '2'], avail := fun _ _ => true, fileCtxt := 0 }
        (.assign ⟨0, 5, 0⟩ (.other ⟨0, 1, 0⟩) (.unary ⟨2, 5, 7⟩ .neg (.other ⟨3, 5, 7⟩))) = [] ∧
    check_else_if
        { buf := ['A', 'A', 'A', 'A', ' ', 'e', 'l', 's', 'e', '\n', 'B', 'B'],
          avail := fun _ _ => true, fileCtxt := 0 }
        (.ifE ⟨0, 12, 0⟩ (.other ⟨0, 0, 0⟩) (.mk ⟨0, 4, 0⟩ [])
          (some (.ifE ⟨10, 12, 7⟩ (.other ⟨10, 10, 7⟩) (.mk ⟨10, 12, 7⟩ []) none))) = .ok [] ∧
    check_consecutive_ifs
        { buf := ['i', 'f', ' ', 'a', '{', '}', 'i', 'f', ' ', 'b', '{', '}'],
          avail := fun _ _ => true, fileCtxt := 0 }
        (.ifE ⟨0, 6, 0⟩ (.other ⟨3, 4, 0⟩) (.mk ⟨4, 6, 0⟩ []) none)
        (.ifE ⟨6, 12, 7⟩ (.other ⟨9, 10, 7⟩) (.mk ⟨10, 12, 7⟩ []) none) = [] := by
  refine ⟨?_, ?_, ?_⟩
  · exact (macro_origin_invariant _).1 _ _ _ (Or.inr (by decide))
  · exact (macro_origin_invariant _).2.1 _ _ _ rfl (Or.inr (by decide))
  · exact (macro_origin_invariant _).2.2 _ _ (Or.inr (by decide))

/-! ## C6: the else keyword lookup never panics -/

/-- C6: under the structural preconditions of the else-if matcher, with
the gap text available and — as the parser guarantees for any
`.. } else if ..` construct, modelled here as a hypothesis — containing
an occurrence of `else`, the matcher's keyword lookup succeeds and the
matcher returns normally instead of aborting the traversal. -/
theorem check_else_if_no_abort (cx : Ctx) (e : Expr) (thn : Block) (els : Expr)
    (hun : unsugar_if e = some (thn, some els))
    (hels : (unsugar_if els).isSome = true)
    (hdm : differing_macro_contexts thn.span els.span = false)
    (him : in_macro_ctxt cx thn.span = false)
    (s : List Char)
    (hsnip : snippet_opt cx (mk_sp thn.span.hi els.span.lo) = some s)
    (hkw : ∃ i, elseKw.isPrefixOf (s.drop i) = true) :
    ∃ fs, check_else_if cx e = .ok fs := by
  have hfind := findSub_isSome s elseKw hkw
  obtain ⟨p, hp⟩ := Option.isSome_iff_exists.mp hfind
  refine ⟨if (s.drop p).contains '\n' then [elseIfFinding (mk_sp thn.span.hi els.span.lo)]
    else [], ?_⟩
  unfold check_else_if
  rw [hun]
  simp only [hels, hdm, him, Bool.not_false, Bool.and_self, Bool.and_true, if_true]
  rw [hsnip]
  simp only [hp]
  split <;> rfl

/-- Witness for C6: a same-line `else if` gap ` else ` contains the
keyword, so the matcher returns normally (here with no Finding). -/
theorem check_else_if_no_abort_witness :
    ∃ fs, check_else_if
        { buf := ['A', 'A', 'A', 'A', ' ', 'e', 'l', 's', 'e', ' ', 'B', 'B'],
          avail := fun _ _ => true, fileCtxt := 0 }
        (.ifE ⟨0, 12, 0⟩ (.other ⟨0, 0, 0⟩) (.mk ⟨0, 4, 0⟩ [])
          (some (.ifE ⟨10, 12, 0⟩ (.other ⟨10, 10, 0⟩) (.mk ⟨10, 12, 0⟩ []) none))) = .ok fs := by
  exact check_else_if_no_abort
    { buf := ['A', 'A', 'A', 'A', ' ', 'e', 'l', 's', 'e', ' ', 'B', 'B'],
      avail := fun _ _ => true, fileCtxt := 0 }
    (.ifE ⟨0, 12, 0⟩ (.other ⟨0, 0, 0⟩) (.mk ⟨0, 4, 0⟩ [])
      (some (.ifE ⟨10, 12, 0⟩ (.other ⟨10, 10, 0⟩) (.mk ⟨10, 12, 0⟩ []) none)))
    (.mk ⟨0, 4, 0⟩ []) (.ifE ⟨10, 12, 0⟩ (.other ⟨10, 10, 0⟩) (.mk ⟨10, 12, 0⟩ []) none)
    rfl rfl (by decide) (by decide)
    [' ', 'e', 'l', 's', 'e', ' '] (by decide) ⟨1, by decide⟩

/-! ## C7: the chain property of the consecutive-if matcher -/

/-- A qualifying adjacent pair fires exactly once. -/
theorem check_consecutive_ifs_fires (cx : Ctx) (e1 e2 : Expr)
    (h1 : (unsugar_if e1).isSome = true) (h2 : (unsugar_if e2).isSome = true)
    (hadj : adjacentOk cx e1 e2) :
    check_consecutive_ifs cx e1 e2 = [consecutiveIfsFinding (mk_sp e1.span.hi e2.span.lo)] := by
  obtain ⟨hdm, him, s, hsnip, hnl⟩ := hadj
  unfold check_consecutive_ifs
  simp only [h1, h2, hdm, him, Bool.not_false, Bool.and_self, Bool.and_true, if_true]
  rw [hsnip]
  simp [hnl]
  simpa using hnl

/-- Window count over an all-`if` chain of `Expr`-statements: one Finding
per adjacent boundary. -/
theorem checkStmtsWindows_chain_length (cx : Ctx) :
    ∀ es : List Expr, (∀ e ∈ es, (unsugar_if e).isSome = true) →
      es.Chain' (adjacentOk cx) →
      (checkStmtsWindows cx (es.map Stmt.expr)).length + 1 = max es.length 1 := by
  intro es
  induction es with
  | nil => intro _ _; simp [checkStmtsWindows]
  | cons e1 tail ih =>
    intro hifs hchain
    cases tail with
    | nil => simp [checkStmtsWindows]
    | cons e2 rest =>
      rw [List.chain'_cons] at hchain
      have hpair := check_consecutive_ifs_fires cx e1 e2
        (hifs e1 (by simp)) (hifs e2 (by simp)) hchain.1
      have ihr := ih (fun e he => hifs e (List.mem_cons_of_mem _ he)) hchain.2
      simp only [List.map_cons] at ihr ⊢
      rw [show checkStmtsWindows cx (Stmt.expr e1 :: Stmt.expr e2 :: List.map Stmt.expr rest) =
        checkStmtPair cx (Stmt.expr e1) (Stmt.expr e2) ++
          checkStmtsWindows cx (Stmt.expr e2 :: List.map Stmt.expr rest) from rfl]
      rw [List.length_append]
      rw [show checkStmtPair cx (Stmt.expr e1) (Stmt.expr e2) =
        check_consecutive_ifs cx e1 e2 from rfl]
      rw [hpair]
      simp only [List.length_cons, List.length_nil, List.length_map] at ihr ⊢
      omega

/-- C7: a block whose statements are `k ≥ 2` consecutive `if`-shaped
`Expr`-statements, every adjacent gap being available and newline-free
and every pair passing the macro checks, produces exactly `k - 1`
`SuspiciousElseFormatting` Findings — one per adjacent boundary. -/
theorem check_block_chain_spec (cx : Ctx) (bsp : Span) (es : List Expr)
    (hifs : ∀ e ∈ es, (unsugar_if e).isSome = true)
    (hchain : es.Chain' (adjacentOk cx))
    (hk : 2 ≤ es.length) :
    (check_block cx (.mk bsp (es.map Stmt.expr))).length = es.length - 1 := by
  have h := checkStmtsWindows_chain_length cx es hifs hchain
  rw [show check_block cx (.mk bsp (es.map Stmt.expr)) =
    checkStmtsWindows cx (es.map Stmt.expr) from rfl]
  omega

/-- Witness for C7: three touching `if` statements yield exactly two
Findings. -/
theorem check_block_chain_spec_witness :
    (check_block
        { buf := ['i', 'f', ' ', 'a', '{', '}', 'i', 'f', ' ', 'b', '{', '}',
                  'i', 'f', ' ', 'c', '{', '}'],
          avail := fun _ _ => true, fileCtxt := 0 }
        (.mk ⟨0, 18, 0⟩
          [.expr (.ifE ⟨0, 6, 0⟩ (.other ⟨3, 4, 0⟩) (.mk ⟨4, 6, 0⟩ []) none),
           .expr (.ifE ⟨6, 12, 0⟩ (.other ⟨9, 10, 0⟩) (.mk ⟨10, 12, 0⟩ []) none),
           .expr (.ifE ⟨12, 18, 0⟩ (.other ⟨15, 16, 0⟩) (.mk ⟨16, 18, 0⟩ []) none)])).length =
      2 := by
  have h := check_block_chain_spec
    { buf := ['i', 'f', ' ', 'a', '{', '}', 'i', 'f', ' ', 'b', '{', '}',
              'i', 'f', ' ', 'c', '{', '}'],
      avail := fun _ _ => true, fileCtxt := 0 }
    ⟨0, 18, 0⟩
    [.ifE ⟨0, 6, 0⟩ (.other ⟨3, 4, 0⟩) (.mk ⟨4, 6, 0⟩ []) none,
     .ifE ⟨6, 12, 0⟩ (.other ⟨9, 10, 0⟩) (.mk ⟨10, 12, 0⟩ []) none,
     .ifE ⟨12, 18, 0⟩ (.other ⟨15, 16, 0⟩) (.mk ⟨16, 18, 0⟩ []) none]
    (by intro e he; fin_cases he <;> rfl)
    (List.chain'_cons.mpr ⟨⟨rfl, rfl, [], rfl, rfl⟩,
      List.chain'_cons.mpr ⟨⟨rfl, rfl, [], rfl, rfl⟩, List.chain'_singleton _⟩⟩)
    (by decide)
  simpa using h

/-! ## C8: silent short-circuit on missing text or shape -/

/-- C8: whenever a required gap snippet is unavailable, or a required
structural shape is absent (assignment rhs not unary; expression not an
`if`/`if let`; else branch absent or not an `if`/`if let`; either member
of a consecutive pair not an `if`/`if let`), the matcher returns no
Finding — and, for the fallible else-if matcher, returns normally rather
than aborting. -/
theorem matcher_short_circuit_spec (cx : Ctx) :
    (∀ (sp usp : Span) (lhs sub_rhs : Expr) (op : UnOp),
      snippet_opt cx (mk_sp lhs.span.hi usp.lo) = none →
      check_assign cx (.assign sp lhs (.unary usp op sub_rhs)) = []) ∧
    (∀ (sp : Span) (lhs rhs : Expr),
      (∀ (usp : Span) (op : UnOp) (sub_rhs : Expr), rhs ≠ .unary usp op sub_rhs) →
      check_assign cx (.assign sp lhs rhs) = []) ∧
    (∀ e : Expr, unsugar_if e = none → check_else_if cx e = .ok []) ∧
    (∀ (e : Expr) (thn : Block), unsugar_if e = some (thn, none) → check_else_if cx e = .ok []) ∧
    (∀ (e : Expr) (thn : Block) (els : Expr),
      unsugar_if e = some (thn, some els) → unsugar_if els = none →
      check_else_if cx e = .ok []) ∧
    (∀ (e : Expr) (thn : Block) (els : Expr),
      unsugar_if e = some (thn, some els) →
      snippet_opt cx (mk_sp thn.span.hi els.span.lo) = none →
      check_else_if cx e = .ok []) ∧
    (∀ first second : Expr,
      unsugar_if first = none ∨ unsugar_if second = none →
      check_consecutive_ifs cx first second = []) ∧
    (∀ first second : Expr,
      snippet_opt cx (mk_sp first.span.hi second.span.lo) = none →
      check_consecutive_ifs cx first second = []) := by
  refine ⟨?_, ?_, ?_, ?_, ?_, ?_, ?_, ?_⟩
  · intro sp usp lhs sub_rhs op hsnip
    unfold check_assign
    simp only [Expr.span_unary]
    split
    · rw [hsnip]
    · rfl
  · intro sp lhs rhs hne
    cases rhs with
    | unary usp op sub_rhs => exact absurd rfl (hne usp op sub_rhs)
    | assign a b c => simp [check_assign]
    | ifE a b c d => simp [check_assign]
    | ifLet a b c d => simp [check_assign]
    | other a => simp [check_assign]
  · intro e hun
    unfold check_else_if
    rw [hun]
  · intro e thn hun
    unfold check_else_if
    rw [hun]
  · intro e thn els hun hels
    unfold check_else_if
    rw [hun]
    simp [hels]
  · intro e thn els hun hsnip
    unfold check_else_if
    rw [hun]
    simp [hsnip]
  · intro first second h
    unfold check_consecutive_ifs
    rcases h with h | h <;> simp [h]
  · intro first second hsnip
    unfold check_consecutive_ifs
    simp [hsnip]

/-- Witness for C8: concrete instances of each short-circuit — an
always-unavailable accessor, a non-unary rhs, a non-`if` expression, an
`if` without else, an `if` whose else is not an `if`, and a non-`if`
member of a consecutive pair — all produce no Finding and no abort. -/
theorem matcher_short_circuit_spec_witness :
    check_assign { buf := [], avail := fun _ _ => false, fileCtxt := 0 }
        (.assign ⟨0, 0, 0⟩ (.other ⟨0, 0, 0⟩) (.unary ⟨0, 0, 0⟩ .neg (.other ⟨0, 0, 0⟩))) = [] ∧
    check_assign { buf := ['a', '=', 'b'], avail := fun _ _ => true, fileCtxt := 0 }
        (.assign ⟨0, 3, 0⟩ (.other ⟨0, 1, 0⟩) (.other ⟨2, 3, 0⟩)) = [] ∧
    check_else_if { buf := [], avail := fun _ _ => true, fileCtxt := 0 }
        (.other ⟨0, 0, 0⟩) = .ok [] ∧
    check_else_if { buf := [], avail := fun _ _ => true, fileCtxt := 0 }
        (.ifE ⟨0, 0, 0⟩ (.other ⟨0, 0, 0⟩) (.mk ⟨0, 0, 0⟩ []) none) = .ok [] ∧
    check_else_if { buf := [], avail := fun _ _ => true, fileCtxt := 0 }
        (.ifE ⟨0, 0, 0⟩ (.other ⟨0, 0, 0⟩) (.mk ⟨0, 0, 0⟩ [])
          (some (.other ⟨0, 0, 0⟩))) = .ok [] ∧
    check_else_if { buf := [], avail := fun _ _ => false, fileCtxt := 0 }
        (.ifE ⟨0, 0, 0⟩ (.other ⟨0, 0, 0⟩) (.mk ⟨0, 0, 0⟩ [])
          (some (.ifE ⟨0, 0, 0⟩ (.other ⟨0, 0, 0⟩) (.mk ⟨0, 0, 0⟩ []) none))) = .ok [] ∧
    check_consecutive_ifs { buf := [], avail := fun _ _ => true, fileCtxt := 0 }
        (.other ⟨0, 0, 0⟩)
        (.ifE ⟨0, 0, 0⟩ (.other ⟨0, 0, 0⟩) (.mk ⟨0, 0, 0⟩ []) none) = [] ∧
    check_consecutive_ifs { buf := [], avail := fun _ _ => false, fileCtxt := 0 }
        (.ifE ⟨0, 0, 0⟩ (.other ⟨0, 0, 0⟩) (.mk ⟨0, 0, 0⟩ []) none)
        (.ifE ⟨0, 0, 0⟩ (.other ⟨0, 0, 0⟩) (.mk ⟨0, 0, 0⟩ []) none) = [] := by
  refine ⟨?_, ?_, ?_, ?_, ?_, ?_, ?_, ?_⟩
  · exact (matcher_short_circuit_spec _).1 _ _ _ _ _ rfl
  · exact (matcher_short_circuit_spec _).2.1 _ _ _ (by intro a b c h; cases h)
  · exact (matcher_short_circuit_spec _).2.2.1 _ rfl
  · exact (matcher_short_circuit_spec _).2.2.2.1 _ _ rfl
  · exact (matcher_short_circuit_spec _).2.2.2.2.1 _ _ _ rfl rfl
  · exact (matcher_short_circuit_spec _).2.2.2.2.2.1 _ _ _ rfl rfl
  · exact (matcher_short_circuit_spec _).2.2.2.2.2.2.1 _ _ (Or.inl rfl)
  · exact (matcher_short_circuit_spec _).2.2.2.2.2.2.2 _ _ rfl

/-! ## C9: the pass is stateless and deterministic -/

/-- The pass value has no fields, so any two are equal: there is no
hidden state. -/
theorem Formatting.subsingleton_eq (a b : Formatting) : a = b := by
  cases a
  cases b
  rfl

/-- C9: the traversal leaves the pass state unchanged; rerunning the
pass with the state returned by a first run over the same unchanged tree
returns exactly the same result (the identical list, hence the identical
multiset, of Findings); and the output over a concatenation of visited
nodes is the concatenation of the outputs of the two independent runs,
so no matcher invocation affects any other. -/
theorem pass_stateless_deterministic (st : Formatting) (cx : Ctx) (ns ms : List Node) :
    (runPass st cx ns).1 = st ∧
    runPass (runPass st cx ns).1 cx ns = runPass st cx ns ∧
    (∀ fs gs, (runPass st cx ns).2 = .ok fs → (runPass st cx ms).2 = .ok gs →
      (runPass st cx (ns ++ ms)).2 = .ok (fs ++ gs)) := by
  refine ⟨Formatting.subsingleton_eq _ _, ?_, ?_⟩
  · rw [Formatting.subsingleton_eq (runPass st cx ns).1 st]
  · intro fs gs h1 h2
    induction ns generalizing fs with
    | nil =>
      have h1' : fs = [] := by
        simpa [runPass] using h1.symm
      subst h1'
      simpa using h2
    | cons n tail ih =>
      rcases hv : visitNode st cx n with ⟨st1, r⟩
      rw [Formatting.subsingleton_eq st1 st] at hv
      cases r with
      | error msg =>
        simp [runPass, hv] at h1
      | ok fsh =>
        rcases hrest : runPass st cx tail with ⟨st2, r2⟩
        rw [Formatting.subsingleton_eq st2 st] at hrest
        cases r2 with
        | error msg =>
          simp [runPass, hv, hrest] at h1
        | ok frest =>
          simp only [runPass, hv, hrest] at h1
          have hfs : fs = fsh ++ frest := by
            simpa using h1.symm
          have hta := ih frest (by rw [hrest])
          rcases htam : runPass st cx (tail ++ ms) with ⟨st3, r3⟩
          rw [htam] at hta
          cases r3 with
          | error m => simp at hta
          | ok rr =>
            have hrr : rr = frest ++ gs := by simpa using hta
            subst hrr
            show (runPass st cx (n :: (tail ++ ms))).2 = Except.ok (fs ++ gs)
            simp only [runPass, hv]
            rw [htam]
            simp [hfs]

/-- Witness for C9: a one-block traversal emits no Finding, and running
it twice in sequence concatenates the two (empty) outputs. -/
theorem pass_stateless_deterministic_witness :
    (runPass ⟨⟩ { buf := [], avail := fun _ _ => true, fileCtxt := 0 }
      [Node.blockNode (.mk ⟨0, 0, 0⟩ [])]).2 = .ok [] ∧
    (runPass ⟨⟩ { buf := [], avail := fun _ _ => true, fileCtxt := 0 }
      ([Node.blockNode (.mk ⟨0, 0, 0⟩ [])] ++ [Node.blockNode (.mk ⟨0, 0, 0⟩ [])])).2 =
      .ok ([] ++ []) :=
  ⟨rfl,
    (pass_stateless_deterministic ⟨⟩ { buf := [], avail := fun _ _ => true, fileCtxt := 0 }
      [Node.blockNode (.mk ⟨0, 0, 0⟩ [])] [Node.blockNode (.mk ⟨0, 0, 0⟩ [])]).2.2
      [] [] rfl rfl⟩

/-! ## C10: the two expression-level matchers are mutually exclusive -/

/-- The assignment matcher yields nothing or a single assignment
Finding. -/
theorem check_assign_shape (cx : Ctx) (e : Expr) :
    check_assign cx e = [] ∨
      ∃ (op : UnOp) (sp : Span), check_assign cx e = [assignFinding op sp] := by
  unfold check_assign
  dsimp only [Expr.span_unary]
  repeat' split
  all_goals first
    | exact Or.inl rfl
    | exact Or.inr ⟨_, _, rfl⟩

/-- The else-if matcher panics, or yields nothing or a single else
Finding. -/
theorem check_else_if_shape (cx : Ctx) (e : Expr) :
    (∃ msg, check_else_if cx e = .error msg) ∨ check_else_if cx e = .ok [] ∨
      ∃ sp, check_else_if cx e = .ok [elseIfFinding sp] := by
  unfold check_else_if
  dsimp only
  repeat' split
  all_goals first
    | exact Or.inr (Or.inl rfl)
    | exact Or.inl ⟨_, rfl⟩
    | exact Or.inr (Or.inr ⟨_, rfl⟩)

/-- On any single expression at most one of the two expression-level
matchers can be live: the other returns nothing. -/
theorem matchers_exclusive (cx : Ctx) (e : Expr) :
    check_assign cx e = [] ∨ check_else_if cx e = .ok [] := by
  cases e with
  | assign sp lhs rhs => exact Or.inr rfl
  | unary sp op o => exact Or.inl rfl
  | ifE sp c t els => exact Or.inl rfl
  | ifLet sp s t els => exact Or.inl rfl
  | other sp => exact Or.inl rfl

/-- C10: on a single expression the two expression-level matchers are
mutually exclusive: an `Assign` expression can only yield
`SuspiciousAssignmentFormatting` Findings, an `if`/`if let` expression
can only yield `SuspiciousElseFormatting` Findings, and any single
`check_expr` invocation that returns normally emits at most one Finding
in total. -/
theorem check_expr_exclusive (cx : Ctx) :
    (∀ (sp : Span) (lhs rhs : Expr) (fs : List Finding),
      check_expr cx (.assign sp lhs rhs) = .ok fs →
      ∀ f ∈ fs, f.rule = .suspiciousAssignmentFormatting) ∧
    (∀ (e : Expr) (fs : List Finding), (unsugar_if e).isSome = true →
      check_expr cx e = .ok fs →
      ∀ f ∈ fs, f.rule = .suspiciousElseFormatting) ∧
    (∀ (e : Expr) (fs : List Finding), check_expr cx e = .ok fs → fs.length ≤ 1) := by
  refine ⟨?_, ?_, ?_⟩
  · intro sp lhs rhs fs h f hf
    have hei : check_else_if cx (.assign sp lhs rhs) = .ok [] := rfl
    unfold check_expr at h
    rw [hei] at h
    simp only [List.append_nil] at h
    have hfs : fs = check_assign cx (.assign sp lhs rhs) := by
      simpa using h.symm
    subst hfs
    rcases check_assign_shape cx (.assign sp lhs rhs) with ha | ⟨op, fsp, ha⟩ <;> rw [ha] at hf
    · cases hf
    · have : f = assignFinding op fsp := by simpa using hf
      rw [this]
      rfl
  · intro e fs hsome h f hf
    have hca : check_assign cx e = [] := by
      cases e with
      | ifE sp c t els => rfl
      | ifLet sp s t els => rfl
      | assign sp a b => simp [unsugar_if] at hsome
      | unary sp op o => simp [unsugar_if] at hsome
      | other sp => simp [unsugar_if] at hsome
    unfold check_expr at h
    rcases check_else_if_shape cx e with ⟨msg, hei⟩ | hei | ⟨esp, hei⟩ <;> rw [hei] at h
    · simp at h
    · have hfs : fs = [] := by
        simpa [hca] using h.symm
      subst hfs
      cases hf
    · have hfs : fs = [elseIfFinding esp] := by
        simpa [hca] using h.symm
      subst hfs
      have : f = elseIfFinding esp := by simpa using hf
      rw [this]
      rfl
  · intro e fs h
    unfold check_expr at h
    rcases check_else_if_shape cx e with ⟨msg, hei⟩ | hei | ⟨esp, hei⟩ <;> rw [hei] at h
    · simp at h
    · have hfs : fs = check_assign cx e := by
        simpa using h.symm
      subst hfs
      rcases check_assign_shape cx e with ha | ⟨op, fsp, ha⟩ <;> simp [ha]
    · rcases matchers_exclusive cx e with ha | hx
      · have hfs : fs = [elseIfFinding esp] := by
          simpa [ha] using h.symm
        subst hfs
        simp
      · rw [hx] at hei
        simp at hei

/-- Witness for C10: the rules of the concrete Findings produced by the
two matchers on firing inputs, and the at-most-one bound at a firing
assignment. -/
theorem check_expr_exclusive_witness :
    (assignFinding .neg (mk_sp 1 3)).rule = .suspiciousAssignmentFormatting ∧
    (elseIfFinding (mk_sp 4 10)).rule = .suspiciousElseFormatting ∧
    [assignFinding .neg (mk_sp 1 3)].length ≤ 1 := by
  refine ⟨?_, ?_, ?_⟩
  · exact (check_expr_exclusive
      { buf := ['a', '=', '-', '4', '2'], avail := fun _ _ => true, fileCtxt := 0 }).1
      ⟨0, 5, 0⟩ (.other ⟨0, 1, 0⟩) (.unary ⟨2, 5, 0⟩ .neg (.other ⟨3, 5, 0⟩))
      [assignFinding .neg (mk_sp 1 3)] rfl _ (by simp)
  · exact (check_expr_exclusive
      { buf := ['A', 'A', 'A', 'A', ' ', 'e', 'l', 's', 'e', '\n', 'B', 'B'],
        avail := fun _ _ => true, fileCtxt := 0 }).2.1
      (.ifE ⟨0, 12, 0⟩ (.other ⟨0, 0, 0⟩) (.mk ⟨0, 4, 0⟩ [])
        (some (.ifE ⟨10, 12, 0⟩ (.other ⟨10, 10, 0⟩) (.mk ⟨10, 12, 0⟩ []) none)))
      [elseIfFinding (mk_sp 4 10)] rfl rfl _ (by simp)
  · exact (check_expr_exclusive
      { buf := ['a', '=', '-', '4', '2'], avail := fun _ _ => true, fileCtxt := 0 }).2.2
      (.assign ⟨0, 5, 0⟩ (.other ⟨0, 1, 0⟩) (.unary ⟨2, 5, 0⟩ .neg (.other ⟨3, 5, 0⟩)))
      [assignFinding .neg (mk_sp 1 3)] rfl
